import Mathlib

/-!
Verification of the expense-tracker core (src/main.py) against its
natural-language specification.

Shallow embedding conventions:
  * SQLite REAL amounts are modelled as rationals.
  * The stored table is a list of records in insertion order; the
    AUTOINCREMENT id counter is modelled by the `nextId` field of `Store`.
  * SQL text comparison on the `date` column is the Lean `String` order
    (both are lexicographic byte orders on the ASCII strings involved).
  * `datetime.strptime(s, "%Y-%m-%d")` is modelled by `ymdParse` below,
    following the CPython `_strptime` regular expression fragments
    `%Y ~ dddd`, `%m ~ 1[0-2]|0[1-9]|[1-9]`, `%d ~ 3[01]|[12]d|0[1-9]|[1-9]`
    with the whole input consumed, followed by the `datetime` constructor
    range checks (year at least 1, day at most the month length).
  * Python `str.strip` is modelled by `pyStrip` (ASCII whitespace) and
    Python/SQLite lower-casing by `lowerStr` (ASCII letters only).
-/

/-- Numeric value of an ASCII digit character. -/
def dVal (c : Char) : Nat := c.toNat - 48

/-- ASCII digit test, as a code-point range check. -/
def isDig (c : Char) : Bool := 48 ≤ c.toNat && c.toNat ≤ 57

/-- Digit character for a value below ten. -/
def dChar : Nat → Char
  | 0 => '0'
  | 1 => '1'
  | 2 => '2'
  | 3 => '3'
  | 4 => '4'
  | 5 => '5'
  | 6 => '6'
  | 7 => '7'
  | 8 => '8'
  | _ => '9'

/-- Two-digit zero-padded rendering (Python `%02d` for values below 100). -/
def pad2list (n : Nat) : List Char := [dChar (n / 10 % 10), dChar (n % 10)]

/-- Four-digit zero-padded rendering (Python `%04d` for values below 10000). -/
def pad4list (n : Nat) : List Char :=
  [dChar (n / 1000 % 10), dChar (n / 100 % 10), dChar (n / 10 % 10), dChar (n % 10)]

/-- Textual `YYYY-MM` key, as produced by `str` on a pandas monthly Period. -/
def fmtMonth (y m : Nat) : String := ⟨pad4list y ++ '-' :: pad2list m⟩

/-- Canonical `YYYY-MM-DD` rendering of a calendar date. -/
def fmtYMD (y m d : Nat) : String :=
  ⟨pad4list y ++ '-' :: (pad2list m ++ '-' :: pad2list d)⟩

/-- Gregorian leap-year rule used by `datetime`. -/
def isLeapYear (y : Nat) : Bool :=
  decide (y % 4 = 0 ∧ (y % 100 ≠ 0 ∨ y % 400 = 0))

/-- Length of a month as checked by the `datetime` constructor. -/
def daysInMonth (y m : Nat) : Nat :=
  if m = 2 then (if isLeapYear y then 29 else 28)
  else if m = 4 ∨ m = 6 ∨ m = 9 ∨ m = 11 then 30
  else 31

/-- Month field of `strptime`: the regex alternatives `1[0-2]`, `0[1-9]`,
`[1-9]` tried in order, returning the value and the unconsumed input. -/
def monthScan : List Char → Option (Nat × List Char)
  | [] => none
  | c :: rest =>
    if c = '0' then
      match rest with
      | c2 :: rest2 => if 49 ≤ c2.toNat ∧ c2.toNat ≤ 57 then some (dVal c2, rest2) else none
      | [] => none
    else if c = '1' then
      match rest with
      | c2 :: rest2 =>
        if 48 ≤ c2.toNat ∧ c2.toNat ≤ 50 then some (10 + dVal c2, rest2) else some (1, rest)
      | [] => some (1, [])
    else if 50 ≤ c.toNat ∧ c.toNat ≤ 57 then some (dVal c, rest)
    else none

/-- Day field of `strptime`: the regex alternatives `3[01]`, `[12]d`,
`0[1-9]`, `[1-9]` tried in order. -/
def dayScan : List Char → Option (Nat × List Char)
  | [] => none
  | c :: rest =>
    if c = '3' then
      match rest with
      | c2 :: rest2 =>
        if 48 ≤ c2.toNat ∧ c2.toNat ≤ 49 then some (30 + dVal c2, rest2) else some (3, rest)
      | [] => some (3, [])
    else if c = '1' ∨ c = '2' then
      match rest with
      | c2 :: rest2 => if isDig c2 then some (10 * dVal c + dVal c2, rest2) else some (dVal c, rest)
      | [] => some (dVal c, [])
    else if c = '0' then
      match rest with
      | c2 :: rest2 => if 49 ≤ c2.toNat ∧ c2.toNat ≤ 57 then some (dVal c2, rest2) else none
      | [] => none
    else if 52 ≤ c.toNat ∧ c.toNat ≤ 57 then some (dVal c, rest)
    else none

/-- Full `strptime(s, "%Y-%m-%d")` field extraction: a four-digit year,
a dash, the month field, a dash, the day field, end of input. -/
def ymdParse (cs : List Char) : Option (Nat × Nat × Nat) :=
  match cs with
  | c1 :: c2 :: c3 :: c4 :: h1 :: rest =>
    if isDig c1 ∧ isDig c2 ∧ isDig c3 ∧ isDig c4 ∧ h1 = '-' then
      match monthScan rest with
      | some (m, rest2) =>
        match rest2 with
        | h2 :: rest3 =>
          if h2 = '-' then
            match dayScan rest3 with
            | some (d, rest4) =>
              match rest4 with
              | [] => some (dVal c1 * 1000 + dVal c2 * 100 + dVal c3 * 10 + dVal c4, m, d)
              | _ :: _ => none
            | none => none
          else none
        | [] => none
      | none => none
    else none
  | _ => none

/-- Date validation performed by `add_expense`: `strptime` succeeds and the
`datetime` constructor accepts the extracted fields. -/
def dateOk (s : String) : Bool :=
  match ymdParse s.data with
  | some (y, m, d) => decide (1 ≤ y ∧ d ≤ daysInMonth y m)
  | none => false

/-- ASCII whitespace set stripped by Python `str.strip` on the inputs that
occur here. -/
def isSpaceCh (c : Char) : Bool :=
  c = ' ' ∨ c = '\t' ∨ c = '\n' ∨ c = '\r' ∨ c.toNat = 11 ∨ c.toNat = 12

/-- Python `str.strip`: drop leading and trailing whitespace. -/
def pyStrip (s : String) : String :=
  ⟨(((s.data.dropWhile isSpaceCh).reverse.dropWhile isSpaceCh).reverse)⟩

/-- ASCII lower-casing, as done by SQLite `lower()` and by Python `str.lower`
on the ASCII strings occurring here. -/
def lowerCh (c : Char) : Char :=
  if 65 ≤ c.toNat ∧ c.toNat ≤ 90 then Char.ofNat (c.toNat + 32) else c

/-- Lower-case every character of a string. -/
def lowerStr (s : String) : String := ⟨s.data.map lowerCh⟩

/-- A row of the `expenses` table. -/
structure Record where
  id : Nat
  date : String
  category : String
  amount : ℚ
  notes : Option String
deriving DecidableEq, Repr

/-- The persisted database: the AUTOINCREMENT counter and the rows in
insertion order. -/
structure Store where
  nextId : Nat
  rows : List Record
deriving DecidableEq, Repr

/-- The store produced by `init_db` on a fresh file. -/
def emptyStore : Store := { nextId := 1, rows := [] }

/-- Model of `add_expense`: validate the date with `strptime`, then insert
`(date_str, category.strip(), float(amount), notes.strip() if notes else
None)`.  An `Except.error` models the raised `ValueError`, before which
nothing is stored. -/
def add_expense (st : Store) (date_str category : String) (amount : ℚ)
    (notes : String) : Except String Store :=
  if dateOk date_str then
    Except.ok
      { nextId := st.nextId + 1,
        rows := st.rows ++
          [{ id := st.nextId, date := date_str, category := pyStrip category,
             amount := amount,
             notes := if notes = "" then none else some (pyStrip notes) }] }
  else Except.error "Date must be in YYYY-MM-DD format."

/-- Insert one element into a list so that elements for which `le` already
holds stay in front (auxiliary step of the sort used to model `ORDER BY`). -/
def insOrd {α : Type} (le : α → α → Bool) (x : α) : List α → List α
  | [] => [x]
  | y :: ys => if le x y then x :: y :: ys else y :: insOrd le x ys

/-- Insertion sort by a boolean comparison, modelling SQL `ORDER BY` and the
pandas sorting calls. -/
def sortOrd {α : Type} (le : α → α → Bool) : List α → List α
  | [] => []
  | x :: xs => insOrd le x (sortOrd le xs)

/-- Display order of the table: `ORDER BY date DESC, id DESC` with the text
order on the `date` column. -/
def dispLe (a b : Record) : Bool :=
  decide (b.date < a.date ∨ (a.date = b.date ∧ b.id ≤ a.id))

/-- Model of `fetch_all`: every row, in display order. -/
def fetch_all (rows : List Record) : List Record := sortOrd dispLe rows

/-- Row predicate assembled by `search_expenses`: each clause is appended only
when its option is present, where presence of the string options is Python
truthiness (so `some ""` adds no clause) while presence of the amount options
is an `is not None` test. -/
def rowPass (sd ed cat : Option String) (mn mx : Option ℚ) (r : Record) : Bool :=
  (match sd with
   | none => true
   | some s => if s = "" then true else decide (s ≤ r.date)) &&
  (match ed with
   | none => true
   | some s => if s = "" then true else decide (r.date ≤ s)) &&
  (match cat with
   | none => true
   | some c => if c = "" then true else decide (lowerStr r.category = lowerStr c)) &&
  (match mn with
   | none => true
   | some q => decide (q ≤ r.amount)) &&
  (match mx with
   | none => true
   | some q => decide (r.amount ≤ q))

/-- Filter predicate as the specification words it: every present option is a
constraint (inclusive date bounds, case-insensitive category equality,
inclusive amount bounds), absent options constrain nothing. -/
def specPass (sd ed cat : Option String) (mn mx : Option ℚ) (r : Record) : Bool :=
  (match sd with
   | none => true
   | some s => decide (s ≤ r.date)) &&
  (match ed with
   | none => true
   | some s => decide (r.date ≤ s)) &&
  (match cat with
   | none => true
   | some c => decide (lowerStr r.category = lowerStr c)) &&
  (match mn with
   | none => true
   | some q => decide (q ≤ r.amount)) &&
  (match mx with
   | none => true
   | some q => decide (r.amount ≤ q))

/-- Model of `search_expenses`: the rows passing every assembled clause, in
display order. -/
def search_expenses (rows : List Record) (sd ed cat : Option String)
    (mn mx : Option ℚ) : List Record :=
  sortOrd dispLe (rows.filter (rowPass sd ed cat mn mx))

/-- Sum of the `amount` column. -/
def sumAmounts (recs : List Record) : ℚ := (recs.map (fun r => r.amount)).sum

/-- Model of `total_spending`. -/
def total_spending (recs : List Record) : ℚ := sumAmounts recs

/-- String comparison used when pandas sorts group keys. -/
def strLe (a b : String) : Bool := decide (a ≤ b)

/-- Comparison sorting `(key, sum)` pairs by descending sum
(`sort_values(ascending=False)`). -/
def catSumLe (a b : String × ℚ) : Bool := decide (b.2 ≤ a.2)

/-- Model of `spending_by_category`: group the rows by exact category text
(`groupby` returns groups in key order), sum each group, then sort the pairs
by descending sum. -/
def spending_by_category (recs : List Record) : List (String × ℚ) :=
  sortOrd catSumLe
    ((sortOrd strLe ((recs.map (fun r => r.category)).dedup)).map
      (fun c => (c, sumAmounts (recs.filter (fun r => decide (r.category = c))))))

/-- Year and month of a stored date text, as extracted by
`pd.to_datetime` plus `.dt.to_period("M")`.  The analytics callers only reach
this with dates accepted by `add_expense`, so the fallback pair for
unparseable text is never relied on. -/
def monthPeriod (s : String) : Nat × Nat :=
  match ymdParse s.data with
  | some (y, m, _) => (y, m)
  | none => (0, 0)

/-- Chronological comparison of `(year, month)` keys. -/
def pairLe (a b : Nat × Nat) : Bool :=
  decide (a.1 < b.1 ∨ (a.1 = b.1 ∧ a.2 ≤ b.2))

/-- Model of `monthly_trend`: group the rows by calendar year and month, sum
each group, order the groups chronologically (`sort_index`), and render each
key as its `YYYY-MM` text (`index.astype(str)`). -/
def monthly_trend (recs : List Record) : List (String × ℚ) :=
  (sortOrd pairLe ((recs.map (fun r => monthPeriod r.date)).dedup)).map
    (fun k => (fmtMonth k.1 k.2,
               sumAmounts (recs.filter (fun r => decide (monthPeriod r.date = k)))))

/-- Model of `plot_pie_category`: `none` models the printed skip notice taken
on an empty series, before any rasterization; `some path` models the
`savefig` call on the non-empty branch. -/
def plot_pie_category (series : List (String × ℚ)) (out_path : String) :
    Option String :=
  match series with
  | [] => none
  | _ :: _ => some out_path

/-- Model of `plot_monthly_trend`, with the same skip convention. -/
def plot_monthly_trend (series : List (String × ℚ)) (out_path : String) :
    Option String :=
  match series with
  | [] => none
  | _ :: _ => some out_path

/-- One CSV data row, modelled as its list of fields.  The `date` field is
the `%Y-%m-%d` rendering pandas uses for a date-only column; a NULL `notes`
value becomes the empty field.  Rendering of the floating `amount` field is
abstracted by the `amtStr` parameter. -/
def csvRow (amtStr : ℚ → String) (r : Record) : List String :=
  [toString r.id,
   (match ymdParse r.date.data with
    | some (y, m, d) => fmtYMD y m d
    | none => r.date),
   r.category,
   amtStr r.amount,
   (match r.notes with
    | none => ""
    | some s => s)]

/-- Model of `export_csv` (`df.to_csv(filename, index=False)`): the header
line followed by one line per row of the data frame, each line modelled as
its list of fields. -/
def export_csv (amtStr : ℚ → String) (recs : List Record) : List (List String) :=
  ["id", "date", "category", "amount", "notes"] :: recs.map (csvRow amtStr)

/-- Model of `prompt_add`: the console flow around `add_expense`.  Inputs are
the five typed strings; `parseAmt` abstracts Python `float()` parsing.  The
returned store is unchanged on every cancel or error path. -/
def prompt_add (st : Store) (today dateIn catIn amtIn notesIn : String)
    (parseAmt : String → Option ℚ) : Store :=
  let d0 := pyStrip dateIn
  if lowerStr d0 = "q" then st
  else
    let date := if d0 = "" then today else d0
    let category := pyStrip catIn
    if lowerStr category = "q" ∨ category = "" then st
    else
      let amt0 := pyStrip amtIn
      if lowerStr amt0 = "q" then st
      else
        match parseAmt amt0 with
        | none => st
        | some amt =>
          let notes := pyStrip notesIn
          match add_expense st date category amt notes with
          | Except.ok st2 => st2
          | Except.error _ => st

/-- Strict `YYYY-MM-DD` shape, written from the specification words: a
four-digit year, a dash, a two-digit month `01`-`12`, a dash, and a two-digit
day valid for that month and year. -/
def isStrictYMD (s : String) : Bool :=
  match s.data with
  | [y1, y2, y3, y4, h1, m1, m2, h2, d1, d2] =>
    isDig y1 && isDig y2 && isDig y3 && isDig y4 && isDig m1 && isDig m2 &&
    isDig d1 && isDig d2 && decide (h1 = '-') && decide (h2 = '-') &&
    (let y := dVal y1 * 1000 + dVal y2 * 100 + dVal y3 * 10 + dVal y4
     let m := dVal m1 * 10 + dVal m2
     let d := dVal d1 * 10 + dVal d2
     decide (1 ≤ y ∧ 1 ≤ m ∧ m ≤ 12 ∧ 1 ≤ d ∧ d ≤ daysInMonth y m))
  | _ => false

/-- Unfolding lemma: inserting before a head that compares after `x`. -/
theorem insOrd_cons_pos {α : Type} (le : α → α → Bool) {x y : α} (ys : List α)
    (h : le x y = true) : insOrd le x (y :: ys) = x :: y :: ys := by
  simp [insOrd, h]

/-- Unfolding lemma: inserting past a head that compares before `x`. -/
theorem insOrd_cons_neg {α : Type} (le : α → α → Bool) {x y : α} (ys : List α)
    (h : le x y = false) : insOrd le x (y :: ys) = y :: insOrd le x ys := by
  simp [insOrd, h]

/-- Inserting permutes: the result is the element consed to the list, up to
permutation. -/
theorem insOrd_perm {α : Type} (le : α → α → Bool) (x : α) (l : List α) :
    List.Perm (insOrd le x l) (x :: l) := by
  induction l with
  | nil => exact List.Perm.refl _
  | cons y ys ih =>
    unfold insOrd
    by_cases h : le x y = true
    · simp [h]
    · simp only [h, if_neg, Bool.false_eq_true, not_false_eq_true, ite_false]
      exact (List.Perm.cons y ih).trans (List.Perm.swap x y ys)

/-- Sorting permutes. -/
theorem sortOrd_perm {α : Type} (le : α → α → Bool) (l : List α) :
    List.Perm (sortOrd le l) l := by
  induction l with
  | nil => exact List.Perm.refl _
  | cons x xs ih => exact (insOrd_perm le x (sortOrd le xs)).trans (List.Perm.cons x ih)

/-- Membership is invariant under sorting. -/
theorem mem_sortOrd {α : Type} (le : α → α → Bool) (l : List α) (a : α) :
    a ∈ sortOrd le l ↔ a ∈ l :=
  (sortOrd_perm le l).mem_iff

/-- Length is invariant under sorting. -/
theorem length_sortOrd {α : Type} (le : α → α → Bool) (l : List α) :
    (sortOrd le l).length = l.length :=
  (sortOrd_perm le l).length_eq

/-- Inserting into a sorted list keeps it sorted, for a total transitive
comparison. -/
theorem pairwise_insOrd {α : Type} (le : α → α → Bool)
    (htot : ∀ a b, le a b = true ∨ le b a = true)
    (htrans : ∀ a b c, le a b = true → le b c = true → le a c = true)
    (x : α) (l : List α) (h : l.Pairwise (fun a b => le a b = true)) :
    (insOrd le x l).Pairwise (fun a b => le a b = true) := by
  induction l with
  | nil => simp [insOrd]
  | cons y ys ih =>
    rw [List.pairwise_cons] at h
    obtain ⟨hy, hys⟩ := h
    unfold insOrd
    by_cases hxy : le x y = true
    · simp only [hxy, ite_true]
      rw [List.pairwise_cons]
      refine ⟨?_, ?_⟩
      · intro z hz
        rcases List.mem_cons.mp hz with rfl | hz
        · exact hxy
        · exact htrans x y z hxy (hy z hz)
      · rw [List.pairwise_cons]
        exact ⟨hy, hys⟩
    · have hyx : le y x = true := (htot x y).resolve_left hxy
      simp only [hxy, Bool.false_eq_true, not_false_eq_true, ite_false]
      rw [List.pairwise_cons]
      refine ⟨?_, ih hys⟩
      intro z hz
      rcases List.mem_cons.mp ((insOrd_perm le x ys).mem_iff.mp hz) with rfl | hz
      · exact hyx
      · exact hy z hz

/-- Sorting yields a pairwise-ordered list, for a total transitive
comparison. -/
theorem pairwise_sortOrd {α : Type} (le : α → α → Bool)
    (htot : ∀ a b, le a b = true ∨ le b a = true)
    (htrans : ∀ a b c, le a b = true → le b c = true → le a c = true)
    (l : List α) : (sortOrd le l).Pairwise (fun a b => le a b = true) := by
  induction l with
  | nil => simp [sortOrd]
  | cons x xs ih => exact pairwise_insOrd le htot htrans x (sortOrd le xs) ih

/-- Inserting an element no larger than every list element just conses it. -/
theorem insOrd_of_le {α : Type} (le : α → α → Bool) (x : α) (l : List α)
    (h : ∀ z ∈ l, le x z = true) : insOrd le x l = x :: l := by
  cases l with
  | nil => rfl
  | cons y ys => simp [insOrd, h y (List.mem_cons_self y ys)]

/-- Filtering away the inserted element undoes the insertion. -/
theorem filter_insOrd_neg {α : Type} (le : α → α → Bool) (p : α → Bool)
    (x : α) (l : List α) (hx : p x = false) :
    (insOrd le x l).filter p = l.filter p := by
  induction l with
  | nil => simp [insOrd, hx]
  | cons y ys ih =>
    unfold insOrd
    by_cases hxy : le x y = true
    · simp [hxy, hx]
    · simp only [hxy, Bool.false_eq_true, not_false_eq_true, ite_false]
      by_cases hpy : p y = true
      · simp [hpy, ih]
      · simp only [Bool.not_eq_true] at hpy
        simp [hpy, ih]

/-- Filtering a sorted list commutes with inserting a kept element. -/
theorem filter_insOrd_pos {α : Type} (le : α → α → Bool)
    (htrans : ∀ a b c, le a b = true → le b c = true → le a c = true)
    (p : α → Bool) (x : α) (l : List α)
    (hl : l.Pairwise (fun a b => le a b = true)) (hx : p x = true) :
    (insOrd le x l).filter p = insOrd le x (l.filter p) := by
  induction l with
  | nil => simp [insOrd, hx]
  | cons y ys ih =>
    rw [List.pairwise_cons] at hl
    obtain ⟨hy, hys⟩ := hl
    by_cases hxy : le x y = true
    · rw [insOrd_cons_pos le ys hxy]
      by_cases hpy : p y = true
      · simp [List.filter_cons, hx, hpy, insOrd_cons_pos le _ hxy]
      · simp only [Bool.not_eq_true] at hpy
        simp only [List.filter_cons, hx, hpy, Bool.false_eq_true, ite_true, ite_false]
        rw [insOrd_of_le le x (ys.filter p)]
        intro z hz
        exact htrans x y z hxy (hy z (List.mem_of_mem_filter hz))
    · have hxy' : le x y = false := by
        cases h : le x y with
        | false => rfl
        | true => exact absurd h hxy
      rw [insOrd_cons_neg le ys hxy']
      by_cases hpy : p y = true
      · simp [List.filter_cons, hpy, insOrd_cons_neg le _ hxy', ih hys]
      · simp only [Bool.not_eq_true] at hpy
        simp [List.filter_cons, hpy, ih hys]

/-- Filtering commutes with sorting. -/
theorem filter_sortOrd {α : Type} (le : α → α → Bool)
    (htot : ∀ a b, le a b = true ∨ le b a = true)
    (htrans : ∀ a b c, le a b = true → le b c = true → le a c = true)
    (p : α → Bool) (l : List α) :
    (sortOrd le l).filter p = sortOrd le (l.filter p) := by
  induction l with
  | nil => rfl
  | cons x xs ih =>
    by_cases hp : p x = true
    · have h1 := filter_insOrd_pos le htrans p x (sortOrd le xs)
        (pairwise_sortOrd le htot htrans xs) hp
      simp only [sortOrd, h1, ih, List.filter_cons, hp, ite_true]
    · simp only [Bool.not_eq_true] at hp
      have h1 := filter_insOrd_neg le p x (sortOrd le xs) hp
      simp only [sortOrd, h1, ih, List.filter_cons, hp, Bool.false_eq_true, ite_false]

/-- The display comparison is total. -/
theorem dispLe_total : ∀ a b : Record, dispLe a b = true ∨ dispLe b a = true := by
  intro a b
  simp only [dispLe, decide_eq_true_eq]
  rcases lt_trichotomy a.date b.date with h | h | h
  · right; exact Or.inl h
  · rcases Nat.le_total a.id b.id with h2 | h2
    · right; exact Or.inr ⟨h.symm, h2⟩
    · left; exact Or.inr ⟨h, h2⟩
  · left; exact Or.inl h

/-- The display comparison is transitive. -/
theorem dispLe_trans :
    ∀ a b c : Record, dispLe a b = true → dispLe b c = true → dispLe a c = true := by
  intro a b c hab hbc
  simp only [dispLe, decide_eq_true_eq] at hab hbc ⊢
  rcases hab with h1 | ⟨h1, h1'⟩
  · rcases hbc with h2 | ⟨h2, h2'⟩
    · exact Or.inl (lt_trans h2 h1)
    · exact Or.inl (h2 ▸ h1)
  · rcases hbc with h2 | ⟨h2, h2'⟩
    · exact Or.inl (h1.symm ▸ h2)
    · exact Or.inr ⟨h1.trans h2, le_trans h2' h1'⟩

/-- The descending-sum comparison is total. -/
theorem catSumLe_total : ∀ a b : String × ℚ, catSumLe a b = true ∨ catSumLe b a = true := by
  intro a b
  simp only [catSumLe, decide_eq_true_eq]
  exact (le_total b.2 a.2).imp id id

/-- The descending-sum comparison is transitive. -/
theorem catSumLe_trans :
    ∀ a b c : String × ℚ, catSumLe a b = true → catSumLe b c = true → catSumLe a c = true := by
  intro a b c hab hbc
  simp only [catSumLe, decide_eq_true_eq] at hab hbc ⊢
  exact le_trans hbc hab

/-- The chronological key comparison is total. -/
theorem pairLe_total : ∀ a b : Nat × Nat, pairLe a b = true ∨ pairLe b a = true := by
  intro a b
  simp only [pairLe, decide_eq_true_eq]
  omega

/-- The chronological key comparison is transitive. -/
theorem pairLe_trans :
    ∀ a b c : Nat × Nat, pairLe a b = true → pairLe b c = true → pairLe a c = true := by
  intro a b c hab hbc
  simp only [pairLe, decide_eq_true_eq] at hab hbc ⊢
  omega

/-- The string comparison is total. -/
theorem strLe_total : ∀ a b : String, strLe a b = true ∨ strLe b a = true := by
  intro a b
  simp only [strLe, decide_eq_true_eq]
  exact (le_total a b).imp id id

/-- The string comparison is transitive. -/
theorem strLe_trans :
    ∀ a b c : String, strLe a b = true → strLe b c = true → strLe a c = true := by
  intro a b c hab hbc
  simp only [strLe, decide_eq_true_eq] at hab hbc ⊢
  exact le_trans hab hbc

/-- Amount sum of a cons. -/
theorem sumAmounts_cons (r : Record) (l : List Record) :
    sumAmounts (r :: l) = r.amount + sumAmounts l := by
  simp [sumAmounts]

/-- Splitting the amount sum along a boolean predicate. -/
theorem sumAmounts_filter_split (p : Record → Bool) (recs : List Record) :
    sumAmounts (recs.filter p) + sumAmounts (recs.filter (fun r => !(p r))) =
      sumAmounts recs := by
  induction recs with
  | nil => simp [sumAmounts]
  | cons r l ih =>
    by_cases hp : p r = true
    · simp only [List.filter_cons, hp, Bool.not_true, Bool.false_eq_true, ite_true, ite_false,
        sumAmounts_cons]
      linarith [ih]
    · simp only [Bool.not_eq_true] at hp
      simp only [List.filter_cons, hp, Bool.not_false, Bool.false_eq_true, ite_true, ite_false,
        sumAmounts_cons]
      linarith [ih]

/-- Grouping amounts by a key and summing the groups preserves the total,
for any duplicate-free key list covering the records. -/
theorem sumAmounts_partition {κ : Type} [DecidableEq κ] (key : Record → κ) :
    ∀ ks : List κ, ks.Nodup → ∀ recs : List Record, (∀ r ∈ recs, key r ∈ ks) →
      ((ks.map (fun k =>
        sumAmounts (recs.filter (fun r => decide (key r = k))))).sum) = sumAmounts recs := by
  intro ks
  induction ks with
  | nil =>
    intro _ recs hcov
    cases recs with
    | nil => simp [sumAmounts]
    | cons r l => exact absurd (hcov r (List.mem_cons_self r l)) (List.not_mem_nil _)
  | cons k ks ih =>
    intro hnd recs hcov
    rw [List.nodup_cons] at hnd
    obtain ⟨hk, hnd2⟩ := hnd
    rw [List.map_cons, List.sum_cons]
    have hmap : ks.map (fun k2 => sumAmounts (recs.filter (fun r => decide (key r = k2)))) =
        ks.map (fun k2 => sumAmounts
          ((recs.filter (fun r => !(decide (key r = k)))).filter
            (fun r => decide (key r = k2)))) := by
      apply List.map_congr_left
      intro k2 hk2
      congr 1
      rw [List.filter_filter]
      apply List.filter_congr
      intro r _
      have hkne : ¬k2 = k := fun he => hk (he ▸ hk2)
      by_cases h : key r = k2
      · have hne : ¬key r = k := fun hkk => hkne (h.symm.trans hkk)
        simp [h, hne, hkne]
      · simp [h]
    rw [hmap, ih hnd2 _ ?_]
    · exact sumAmounts_filter_split _ recs
    · intro r hr
      have hmem := hcov r (List.mem_of_mem_filter hr)
      rcases List.mem_cons.mp hmem with h | h
      · exfalso
        have := (List.mem_filter.mp hr).2
        simp only [Bool.not_eq_true', decide_eq_false_iff_not] at this
        exact this h
      · exact h

/-- Digit characters pass the digit test. -/
theorem dChar_isDig (n : Nat) : isDig (dChar n) = true := by
  rcases n with _ | _ | _ | _ | _ | _ | _ | _ | _ | _ <;> rfl

/-- Rendering then reading a digit below ten is the identity. -/
theorem dVal_dChar (n : Nat) (h : n < 10) : dVal (dChar n) = n := by
  interval_cases n <;> rfl

/-- The month scanner reads back a two-digit zero-padded month. -/
theorem monthScan_pad (m : Nat) (h1 : 1 ≤ m) (h2 : m ≤ 12) (rest : List Char) :
    monthScan (pad2list m ++ rest) = some (m, rest) := by
  interval_cases m <;> rfl

/-- The day scanner reads back a two-digit zero-padded day. -/
theorem dayScan_pad (d : Nat) (h1 : 1 ≤ d) (h2 : d ≤ 31) (rest : List Char) :
    dayScan (pad2list d ++ rest) = some (d, rest) := by
  interval_cases d <;> rfl

/-- The day scanner reads back a two-digit zero-padded day at end of input. -/
theorem dayScan_pad_nil (d : Nat) (h1 : 1 ≤ d) (h2 : d ≤ 31) :
    dayScan (pad2list d) = some (d, []) := by
  have h := dayScan_pad d h1 h2 []
  rwa [List.append_nil] at h

/-- Unfolding lemma for the full scanner on a five-plus-character list. -/
theorem ymdParse_cons (c1 c2 c3 c4 h1 : Char) (rest : List Char) :
    ymdParse (c1 :: c2 :: c3 :: c4 :: h1 :: rest) =
      (if isDig c1 ∧ isDig c2 ∧ isDig c3 ∧ isDig c4 ∧ h1 = '-' then
        match monthScan rest with
        | some (m, rest2) =>
          match rest2 with
          | h2 :: rest3 =>
            if h2 = '-' then
              match dayScan rest3 with
              | some (d, rest4) =>
                match rest4 with
                | [] => some (dVal c1 * 1000 + dVal c2 * 100 + dVal c3 * 10 + dVal c4, m, d)
                | _ :: _ => none
              | none => none
            else none
          | [] => none
        | none => none
      else none) := rfl

/-- The full scanner reads back a canonical `YYYY-MM-DD` rendering. -/
theorem ymdParse_fmtYMD (y m d : Nat) (hy1 : 1 ≤ y) (hy2 : y ≤ 9999)
    (hm1 : 1 ≤ m) (hm2 : m ≤ 12) (hd1 : 1 ≤ d) (hd2 : d ≤ 31) :
    ymdParse (fmtYMD y m d).data = some (y, m, d) := by
  show ymdParse (pad4list y ++ '-' :: (pad2list m ++ '-' :: pad2list d)) = some (y, m, d)
  simp only [pad4list, List.cons_append, List.nil_append]
  rw [ymdParse_cons]
  rw [if_pos ⟨dChar_isDig _, dChar_isDig _, dChar_isDig _, dChar_isDig _, rfl⟩]
  rw [monthScan_pad m hm1 hm2 ('-' :: pad2list d)]
  dsimp only
  rw [if_pos rfl]
  rw [dayScan_pad_nil d hd1 hd2]
  dsimp only
  rw [dVal_dChar _ (Nat.mod_lt _ (by norm_num)), dVal_dChar _ (Nat.mod_lt _ (by norm_num)),
      dVal_dChar _ (Nat.mod_lt _ (by norm_num)), dVal_dChar _ (Nat.mod_lt _ (by norm_num))]
  have hy : y / 1000 % 10 * 1000 + y / 100 % 10 * 100 + y / 10 % 10 * 10 + y % 10 = y := by
    omega
  rw [hy]

/-- Every month length is at most thirty-one days. -/
theorem daysInMonth_le (y m : Nat) : daysInMonth y m ≤ 31 := by
  unfold daysInMonth
  split_ifs <;> omega

/-- Every in-range calendar date renders to a string that the validation
accepts. -/
theorem dateOk_fmtYMD (y m d : Nat) (hy1 : 1 ≤ y) (hy2 : y ≤ 9999)
    (hm1 : 1 ≤ m) (hm2 : m ≤ 12) (hd1 : 1 ≤ d) (hd : d ≤ daysInMonth y m) :
    dateOk (fmtYMD y m d) = true := by
  have hd31 : d ≤ 31 := le_trans hd (daysInMonth_le y m)
  unfold dateOk
  rw [ymdParse_fmtYMD y m d hy1 hy2 hm1 hm2 hd1 hd31]
  exact decide_eq_true ⟨hy1, hd⟩


/-- A successful month scan yields a month between one and twelve. -/
theorem monthScan_sound (cs : List Char) (m : Nat) (rest : List Char)
    (h : monthScan cs = some (m, rest)) : 1 ≤ m ∧ m ≤ 12 := by
  cases cs with
  | nil => exact Option.noConfusion h
  | cons c cs2 =>
    unfold monthScan at h
    dsimp only at h
    by_cases h0 : c = '0'
    · rw [if_pos h0] at h
      cases cs2 with
      | nil => exact Option.noConfusion h
      | cons c2 r2 =>
        dsimp only at h
        by_cases hc : 49 ≤ c2.toNat ∧ c2.toNat ≤ 57
        · rw [if_pos hc] at h
          simp only [Option.some.injEq, Prod.mk.injEq] at h
          obtain ⟨h1, -⟩ := h
          unfold dVal at h1
          omega
        · rw [if_neg hc] at h
          exact Option.noConfusion h
    · rw [if_neg h0] at h
      by_cases h1 : c = '1'
      · rw [if_pos h1] at h
        cases cs2 with
        | nil =>
          simp only [Option.some.injEq, Prod.mk.injEq] at h
          omega
        | cons c2 r2 =>
          dsimp only at h
          by_cases hc : 48 ≤ c2.toNat ∧ c2.toNat ≤ 50
          · rw [if_pos hc] at h
            simp only [Option.some.injEq, Prod.mk.injEq] at h
            obtain ⟨h2, -⟩ := h
            unfold dVal at h2
            omega
          · rw [if_neg hc] at h
            simp only [Option.some.injEq, Prod.mk.injEq] at h
            omega
      · rw [if_neg h1] at h
        by_cases h2 : 50 ≤ c.toNat ∧ c.toNat ≤ 57
        · rw [if_pos h2] at h
          simp only [Option.some.injEq, Prod.mk.injEq] at h
          obtain ⟨h3, -⟩ := h
          unfold dVal at h3
          omega
        · rw [if_neg h2] at h
          exact Option.noConfusion h

/-- A successful day scan yields a day between one and thirty-one. -/
theorem dayScan_sound (cs : List Char) (d : Nat) (rest : List Char)
    (h : dayScan cs = some (d, rest)) : 1 ≤ d ∧ d ≤ 31 := by
  cases cs with
  | nil => exact Option.noConfusion h
  | cons c cs2 =>
    unfold dayScan at h
    dsimp only at h
    by_cases h3 : c = '3'
    · rw [if_pos h3] at h
      cases cs2 with
      | nil =>
        simp only [Option.some.injEq, Prod.mk.injEq] at h
        omega
      | cons c2 r2 =>
        dsimp only at h
        by_cases hc : 48 ≤ c2.toNat ∧ c2.toNat ≤ 49
        · rw [if_pos hc] at h
          simp only [Option.some.injEq, Prod.mk.injEq] at h
          obtain ⟨hd, -⟩ := h
          unfold dVal at hd
          omega
        · rw [if_neg hc] at h
          simp only [Option.some.injEq, Prod.mk.injEq] at h
          omega
    · rw [if_neg h3] at h
      by_cases h12 : c = '1' ∨ c = '2'
      · rw [if_pos h12] at h
        have hcn : c.toNat = 49 ∨ c.toNat = 50 := by
          rcases h12 with rfl | rfl
          · left; rfl
          · right; rfl
        cases cs2 with
        | nil =>
          simp only [Option.some.injEq, Prod.mk.injEq] at h
          obtain ⟨hd, -⟩ := h
          unfold dVal at hd
          omega
        | cons c2 r2 =>
          dsimp only at h
          by_cases hc : isDig c2 = true
          · rw [if_pos hc] at h
            simp only [Option.some.injEq, Prod.mk.injEq] at h
            obtain ⟨hd, -⟩ := h
            unfold isDig at hc
            simp only [Bool.and_eq_true, decide_eq_true_eq] at hc
            unfold dVal at hd
            omega
          · rw [if_neg hc] at h
            simp only [Option.some.injEq, Prod.mk.injEq] at h
            obtain ⟨hd, -⟩ := h
            unfold dVal at hd
            omega
      · rw [if_neg h12] at h
        by_cases h0 : c = '0'
        · rw [if_pos h0] at h
          cases cs2 with
          | nil => exact Option.noConfusion h
          | cons c2 r2 =>
            dsimp only at h
            by_cases hc : 49 ≤ c2.toNat ∧ c2.toNat ≤ 57
            · rw [if_pos hc] at h
              simp only [Option.some.injEq, Prod.mk.injEq] at h
              obtain ⟨hd, -⟩ := h
              unfold dVal at hd
              omega
            · rw [if_neg hc] at h
              exact Option.noConfusion h
        · rw [if_neg h0] at h
          by_cases h49 : 52 ≤ c.toNat ∧ c.toNat ≤ 57
          · rw [if_pos h49] at h
            simp only [Option.some.injEq, Prod.mk.injEq] at h
            obtain ⟨hd, -⟩ := h
            unfold dVal at hd
            omega
          · rw [if_neg h49] at h
            exact Option.noConfusion h

/-- A successful full scan yields in-range month and day fields and a year
of at most four digits. -/
theorem ymdParse_sound (cs : List Char) (y m d : Nat)
    (h : ymdParse cs = some (y, m, d)) :
    1 ≤ m ∧ m ≤ 12 ∧ 1 ≤ d ∧ d ≤ 31 ∧ y ≤ 9999 := by
  match cs with
  | [] => exact Option.noConfusion h
  | [c1] => exact Option.noConfusion h
  | [c1, c2] => exact Option.noConfusion h
  | [c1, c2, c3] => exact Option.noConfusion h
  | [c1, c2, c3, c4] => exact Option.noConfusion h
  | c1 :: c2 :: c3 :: c4 :: hh :: rest =>
    rw [ymdParse_cons] at h
    by_cases hdig : isDig c1 ∧ isDig c2 ∧ isDig c3 ∧ isDig c4 ∧ hh = '-'
    · rw [if_pos hdig] at h
      obtain ⟨hd1, hd2, hd3, hd4, -⟩ := hdig
      cases hms : monthScan rest with
      | none => rw [hms] at h; exact Option.noConfusion h
      | some pr =>
        obtain ⟨m2, rest2⟩ := pr
        rw [hms] at h
        cases rest2 with
        | nil => exact Option.noConfusion h
        | cons h2c rest3 =>
          dsimp only at h
          by_cases hdash : h2c = '-'
          · rw [if_pos hdash] at h
            cases hds : dayScan rest3 with
            | none => rw [hds] at h; exact Option.noConfusion h
            | some pr2 =>
              obtain ⟨d2, rest4⟩ := pr2
              rw [hds] at h
              cases rest4 with
              | nil =>
                dsimp only at h
                simp only [Option.some.injEq, Prod.mk.injEq] at h
                obtain ⟨hy, hm, hd⟩ := h
                have hmb := monthScan_sound rest m2 (h2c :: rest3) hms
                have hdb := dayScan_sound rest3 d2 [] hds
                refine ⟨hm ▸ hmb.1, hm ▸ hmb.2, hd ▸ hdb.1, hd ▸ hdb.2, ?_⟩
                unfold isDig at hd1 hd2 hd3 hd4
                simp only [Bool.and_eq_true, decide_eq_true_eq] at hd1 hd2 hd3 hd4
                unfold dVal at hy
                omega
              | cons c5 r5 => exact Option.noConfusion h
          · rw [if_neg hdash] at h
            exact Option.noConfusion h
    · rw [if_neg hdig] at h
      exact Option.noConfusion h

/-- A pointwise-stronger predicate filters to an at most as long list. -/
theorem length_filter_mono {α : Type} (p q : α → Bool) (l : List α)
    (h : ∀ a ∈ l, p a = true → q a = true) :
    (l.filter p).length ≤ (l.filter q).length := by
  induction l with
  | nil => simp
  | cons x xs ih =>
    have ih2 := ih (fun a ha => h a (List.mem_cons_of_mem x ha))
    by_cases hp : p x = true
    · have hq := h x (List.mem_cons_self x xs) hp
      simp only [List.filter_cons, hp, hq, ite_true, List.length_cons]
      omega
    · simp only [Bool.not_eq_true] at hp
      by_cases hq : q x = true
      · simp only [List.filter_cons, hp, hq, Bool.false_eq_true, ite_false, ite_true,
          List.length_cons]
        omega
      · simp only [Bool.not_eq_true] at hq
        simp only [List.filter_cons, hp, hq, Bool.false_eq_true, ite_false]
        omega

/-- With no empty-string option present, the assembled row predicate agrees
with the specification predicate. -/
theorem rowPass_eq_specPass (sd ed cat : Option String) (mn mx : Option ℚ)
    (h1 : sd ≠ some "") (h2 : ed ≠ some "") (h3 : cat ≠ some "") (r : Record) :
    rowPass sd ed cat mn mx r = specPass sd ed cat mn mx r := by
  unfold rowPass specPass
  rcases sd with - | s1 <;> rcases ed with - | s2 <;> rcases cat with - | s3 <;>
    simp_all [ne_eq]

/-- A weaker option vector lets through every row that a stronger one lets
through. -/
theorem rowPass_mono (sd ed cat : Option String) (mn mx : Option ℚ)
    (sd2 ed2 cat2 : Option String) (mn2 mx2 : Option ℚ)
    (hsd : sd2 = sd ∨ sd = none) (hed : ed2 = ed ∨ ed = none)
    (hcat : cat2 = cat ∨ cat = none) (hmn : mn2 = mn ∨ mn = none)
    (hmx : mx2 = mx ∨ mx = none) (r : Record)
    (h : rowPass sd2 ed2 cat2 mn2 mx2 r = true) :
    rowPass sd ed cat mn mx r = true := by
  unfold rowPass at h ⊢
  simp only [Bool.and_eq_true] at h ⊢
  obtain ⟨⟨⟨⟨p1, p2⟩, p3⟩, p4⟩, p5⟩ := h
  refine ⟨⟨⟨⟨?_, ?_⟩, ?_⟩, ?_⟩, ?_⟩
  · rcases hsd with rfl | h
    · exact p1
    · rw [h]
  · rcases hed with rfl | h
    · exact p2
    · rw [h]
  · rcases hcat with rfl | h
    · exact p3
    · rw [h]
  · rcases hmn with rfl | h
    · exact p4
    · rw [h]
  · rcases hmx with rfl | h
    · exact p5
    · rw [h]

/-- The fully absent option vector lets every row through. -/
theorem rowPass_none (r : Record) : rowPass none none none none none r = true := rfl

/-- C1.  For every stored record set and every subset of the filter options,
`search_expenses` returns exactly the records of `fetch_all` satisfying every
present constraint combined with logical AND (inclusive date bounds,
case-insensitive exact category match, inclusive amount bounds; the present
string options carrying a non-empty value); a call with all options absent
returns the same records as `fetch_all`, and adding any additional constraint
never increases the result set. -/
theorem search_filter_conjunction :
    ∀ (rows : List Record) (sd ed cat : Option String) (mn mx : Option ℚ),
      (sd ≠ some "" → ed ≠ some "" → cat ≠ some "" →
        search_expenses rows sd ed cat mn mx =
          (fetch_all rows).filter (specPass sd ed cat mn mx))
      ∧ search_expenses rows none none none none none = fetch_all rows
      ∧ ∀ (sd2 ed2 cat2 : Option String) (mn2 mx2 : Option ℚ),
          (sd2 = sd ∨ sd = none) → (ed2 = ed ∨ ed = none) → (cat2 = cat ∨ cat = none) →
          (mn2 = mn ∨ mn = none) → (mx2 = mx ∨ mx = none) →
          (search_expenses rows sd2 ed2 cat2 mn2 mx2).length ≤
              (search_expenses rows sd ed cat mn mx).length
          ∧ ∀ r ∈ search_expenses rows sd2 ed2 cat2 mn2 mx2,
              r ∈ search_expenses rows sd ed cat mn mx := by
  intro rows sd ed cat mn mx
  refine ⟨?_, ?_, ?_⟩
  · intro h1 h2 h3
    unfold search_expenses fetch_all
    rw [filter_sortOrd dispLe dispLe_total dispLe_trans]
    congr 1
    apply List.filter_congr
    intro r _
    exact rowPass_eq_specPass sd ed cat mn mx h1 h2 h3 r
  · unfold search_expenses fetch_all
    congr 1
    exact List.filter_eq_self.mpr (fun r _ => rfl)
  · intro sd2 ed2 cat2 mn2 mx2 hsd hed hcat hmn hmx
    constructor
    · unfold search_expenses
      rw [length_sortOrd, length_sortOrd]
      exact length_filter_mono _ _ rows
        (fun a _ ha => rowPass_mono sd ed cat mn mx sd2 ed2 cat2 mn2 mx2
          hsd hed hcat hmn hmx a ha)
    · intro r hr
      unfold search_expenses at hr ⊢
      rw [mem_sortOrd] at hr ⊢
      rw [List.mem_filter] at hr ⊢
      exact ⟨hr.1, rowPass_mono sd ed cat mn mx sd2 ed2 cat2 mn2 mx2
        hsd hed hcat hmn hmx r hr.2⟩

/-- C4.  For every stored record set, `fetch_all` returns all records ordered
by date descending with ties broken by id descending, and `search_expenses`
returns its filtered results in that same order. -/
theorem fetch_search_display_order :
    ∀ rows : List Record,
      List.Perm (fetch_all rows) rows
      ∧ (fetch_all rows).Pairwise
          (fun a b => b.date < a.date ∨ (a.date = b.date ∧ b.id ≤ a.id))
      ∧ ∀ (sd ed cat : Option String) (mn mx : Option ℚ),
          (search_expenses rows sd ed cat mn mx).Pairwise
            (fun a b => b.date < a.date ∨ (a.date = b.date ∧ b.id ≤ a.id)) := by
  intro rows
  refine ⟨sortOrd_perm dispLe rows, ?_, ?_⟩
  · exact (pairwise_sortOrd dispLe dispLe_total dispLe_trans rows).imp
      (fun h => by simpa [dispLe, decide_eq_true_eq] using h)
  · intro sd ed cat mn mx
    exact (pairwise_sortOrd dispLe dispLe_total dispLe_trans _).imp
      (fun h => by simpa [dispLe, decide_eq_true_eq] using h)

/-- C3.  For every record set with validated dates, the per-category sums of
`spending_by_category` and the per-month sums of `monthly_trend` both add up
to `total_spending` of the same records (exactly, in the rational model). -/
theorem aggregation_totals :
    ∀ recs : List Record, (∀ r ∈ recs, dateOk r.date = true) →
      ((spending_by_category recs).map (fun p => p.2)).sum = total_spending recs
      ∧ ((monthly_trend recs).map (fun p => p.2)).sum = total_spending recs := by
  intro recs hdates
  constructor
  · unfold spending_by_category total_spending
    have hperm := (sortOrd_perm catSumLe
      ((sortOrd strLe ((recs.map (fun r => r.category)).dedup)).map
        (fun c => (c, sumAmounts (recs.filter (fun r => decide (r.category = c))))))).map
      (fun p : String × ℚ => p.2)
    rw [hperm.sum_eq, List.map_map]
    exact sumAmounts_partition (fun r => r.category) _
      (((sortOrd_perm strLe _).nodup_iff).mpr (List.nodup_dedup _)) recs
      (fun r hr => (mem_sortOrd strLe _ _).mpr
        (List.mem_dedup.mpr (List.mem_map_of_mem _ hr)))
  · unfold monthly_trend total_spending
    rw [List.map_map]
    exact sumAmounts_partition (fun r => monthPeriod r.date) _
      (((sortOrd_perm pairLe _).nodup_iff).mpr (List.nodup_dedup _)) recs
      (fun r hr => (mem_sortOrd pairLe _ _).mpr
        (List.mem_dedup.mpr (List.mem_map_of_mem _ hr)))

/-- C5.  For every record set with validated dates, `spending_by_category`
is sorted descending by the summed amount, and `monthly_trend` is the
rendering of a strictly chronologically ascending list of in-range
year-month keys, each rendered as a seven-character `YYYY-MM` text. -/
theorem aggregates_display_order :
    ∀ recs : List Record, (∀ r ∈ recs, dateOk r.date = true) →
      (spending_by_category recs).Pairwise (fun a b => b.2 ≤ a.2)
      ∧ (∀ y m : Nat, (fmtMonth y m).length = 7)
      ∧ ∃ ks : List (Nat × Nat),
          ks.Pairwise (fun a b => a.1 < b.1 ∨ (a.1 = b.1 ∧ a.2 < b.2))
          ∧ (∀ k ∈ ks, 1 ≤ k.1 ∧ k.1 ≤ 9999 ∧ 1 ≤ k.2 ∧ k.2 ≤ 12)
          ∧ (monthly_trend recs).map (fun p => p.1) =
              ks.map (fun k => fmtMonth k.1 k.2) := by
  intro recs hdates
  refine ⟨?_, fun y m => rfl, ?_⟩
  · unfold spending_by_category
    exact (pairwise_sortOrd catSumLe catSumLe_total catSumLe_trans _).imp
      (fun h => by simpa [catSumLe, decide_eq_true_eq] using h)
  · refine ⟨sortOrd pairLe ((recs.map (fun r => monthPeriod r.date)).dedup), ?_, ?_, ?_⟩
    · have hpw := pairwise_sortOrd pairLe pairLe_total pairLe_trans
        ((recs.map (fun r => monthPeriod r.date)).dedup)
      have hnd : (sortOrd pairLe ((recs.map (fun r => monthPeriod r.date)).dedup)).Nodup :=
        ((sortOrd_perm pairLe _).nodup_iff).mpr (List.nodup_dedup _)
      refine (hpw.and hnd).imp ?_
      intro a b h
      obtain ⟨hle, hne⟩ := h
      simp only [pairLe, decide_eq_true_eq] at hle
      rcases hle with h1 | ⟨h1, h2⟩
      · exact Or.inl h1
      · rcases lt_or_eq_of_le h2 with h3 | h3
        · exact Or.inr ⟨h1, h3⟩
        · exact absurd (Prod.ext h1 h3) hne
    · intro k hk
      have hk2 := (mem_sortOrd pairLe _ k).mp hk
      have hk3 := List.mem_dedup.mp hk2
      obtain ⟨r, hr, hkr⟩ := List.mem_map.mp hk3
      have hok := hdates r hr
      unfold monthPeriod at hkr
      unfold dateOk at hok
      cases hp : ymdParse r.date.data with
      | none => rw [hp] at hok; exact Bool.noConfusion hok
      | some t =>
        obtain ⟨y2, t2⟩ := t
        obtain ⟨m2, d2⟩ := t2
        rw [hp] at hkr hok
        have hk4 : (y2, m2) = k := hkr
        have hok2 : 1 ≤ y2 ∧ d2 ≤ daysInMonth y2 m2 := of_decide_eq_true hok
        have hs := ymdParse_sound r.date.data y2 m2 d2 hp
        subst hk4
        exact ⟨hok2.1, hs.2.2.2.2, hs.1, hs.2.1⟩
    · unfold monthly_trend
      rw [List.map_map]
      rfl

/-- C6.  On empty input none of the aggregation or chart operations errors:
the total is zero, the groupings are empty, and both chart adapters signal a
skip instead of rasterizing. -/
theorem empty_input_safety :
    total_spending [] = 0 ∧ spending_by_category [] = [] ∧ monthly_trend [] = []
    ∧ ∀ out_path : String,
        plot_pie_category [] out_path = none ∧ plot_monthly_trend [] out_path = none :=
  ⟨rfl, rfl, rfl, fun _ => ⟨rfl, rfl⟩⟩

/-- C2 counterexample: the eight-character string `2024-2-9` is not in strict
`YYYY-MM-DD` form, yet the date validation of `add_expense` accepts it and a
record is stored, refuting that exactly the strict-form strings are
accepted. -/
theorem nonstrict_date_accepted :
    isStrictYMD "2024-2-9" = false
    ∧ add_expense emptyStore "2024-2-9" "Food" 5 "" =
        Except.ok { nextId := 2,
                    rows := [{ id := 1, date := "2024-2-9", category := "Food",
                               amount := 5, notes := none }] } :=
  ⟨rfl, rfl⟩

/-- C2 (amended).  Date validation accepts the `strptime`-style Y-M-D
strings: every zero-padded rendering of an in-range calendar date is
accepted, every accepted string parses to an in-range calendar date, the
claimed concrete rejections `2024-13-01`, `2024-02-30`, `not-a-date` and
`2023-02-29` all raise before any record is stored, and both `2024-02-29`
(leap year) and the non-strict `2024-2-9` are accepted. -/
theorem date_validation_behavior :
    (∀ y m d : Nat, 1 ≤ y → y ≤ 9999 → 1 ≤ m → m ≤ 12 → 1 ≤ d →
      d ≤ daysInMonth y m → dateOk (fmtYMD y m d) = true)
    ∧ (∀ (s : String) (y m d : Nat), ymdParse s.data = some (y, m, d) →
        dateOk s = true →
        1 ≤ y ∧ y ≤ 9999 ∧ 1 ≤ m ∧ m ≤ 12 ∧ 1 ≤ d ∧ d ≤ daysInMonth y m)
    ∧ (∀ (st : Store) (c : String) (a : ℚ) (n : String),
        add_expense st "2024-13-01" c a n =
            Except.error "Date must be in YYYY-MM-DD format."
        ∧ add_expense st "2024-02-30" c a n =
            Except.error "Date must be in YYYY-MM-DD format."
        ∧ add_expense st "not-a-date" c a n =
            Except.error "Date must be in YYYY-MM-DD format."
        ∧ add_expense st "2023-02-29" c a n =
            Except.error "Date must be in YYYY-MM-DD format.")
    ∧ dateOk "2024-02-29" = true ∧ dateOk "2024-2-9" = true := by
  refine ⟨dateOk_fmtYMD, ?_, ?_, by decide, by decide⟩
  · intro s y m d hp hok
    have hs := ymdParse_sound s.data y m d hp
    unfold dateOk at hok
    rw [hp] at hok
    have h2 : 1 ≤ y ∧ d ≤ daysInMonth y m := of_decide_eq_true hok
    exact ⟨h2.1, hs.2.2.2.2, hs.1, hs.2.1, hs.2.2.1, h2.2⟩
  · intro st c a n
    refine ⟨?_, ?_, ?_, ?_⟩ <;>
      (unfold add_expense; rw [if_neg (by decide)])

/-- Witness for C2: the amended theorem applied at the leap day 2024-02-29
and at the rejected month 13. -/
theorem date_validation_behavior_witness :
    dateOk (fmtYMD 2024 2 29) = true
    ∧ add_expense emptyStore "2024-13-01" "Food" 5 "" =
        Except.error "Date must be in YYYY-MM-DD format."
    ∧ (1 ≤ 2024 ∧ 2024 ≤ 9999 ∧ 1 ≤ 2 ∧ 2 ≤ 12 ∧ 1 ≤ 29 ∧ 29 ≤ daysInMonth 2024 2) :=
  ⟨date_validation_behavior.1 2024 2 29 (by norm_num) (by norm_num) (by norm_num)
      (by norm_num) (by norm_num) (by decide),
   (date_validation_behavior.2.2.1 emptyStore "Food" 5 "").1,
   date_validation_behavior.2.1 "2024-02-29" 2024 2 29 (by decide) (by decide)⟩

/-- C7 counterexample: add_expense called with an empty category raises
nothing; it inserts a record whose stored category is the empty string. -/
theorem add_expense_empty_category :
    add_expense emptyStore "2024-01-15" "" 5 "" =
      Except.ok { nextId := 2,
                  rows := [{ id := 1, date := "2024-01-15", category := "",
                             amount := 5, notes := none }] } := rfl

/-- C7 (amended).  The empty-category guard lives in the interactive prompt,
not in add_expense: prompt_add leaves the store unchanged whenever the typed
category is empty after trimming, so no record is stored through the prompt,
while add_expense itself performs no category check and stores the trimmed,
possibly empty, category. -/
theorem category_guard_location :
    (∀ (st : Store) (today dateIn catIn amtIn notesIn : String)
        (parseAmt : String → Option ℚ), pyStrip catIn = "" →
        prompt_add st today dateIn catIn amtIn notesIn parseAmt = st)
    ∧ (∀ (st : Store) (d c : String) (a : ℚ) (n : String), dateOk d = true →
        ∃ st2 : Store, add_expense st d c a n = Except.ok st2 ∧
          st2.rows.map (fun r => r.category) =
            st.rows.map (fun r => r.category) ++ [pyStrip c]) := by
  constructor
  · intro st today dateIn catIn amtIn notesIn parseAmt hcat
    unfold prompt_add
    by_cases h1 : lowerStr (pyStrip dateIn) = "q"
    · rw [if_pos h1]
    · rw [if_neg h1]
      rw [if_pos (Or.inr hcat)]
  · intro st d c a n hd
    refine ⟨{ nextId := st.nextId + 1,
              rows := st.rows ++
                [{ id := st.nextId, date := d, category := pyStrip c,
                   amount := a,
                   notes := if n = "" then none else some (pyStrip n) }] },
            ?_, ?_⟩
    · unfold add_expense
      rw [if_pos hd]
    · simp

/-- Witness for C7: the amended theorem applied to a whitespace-only typed
category and to a direct add_expense call with an empty category. -/
theorem category_guard_location_witness :
    prompt_add emptyStore "2024-01-01" "2024-01-15" "   " "5" "" (fun _ => some 5) =
      emptyStore
    ∧ ∃ st2 : Store, add_expense emptyStore "2024-01-15" "" 5 "x" = Except.ok st2 ∧
        st2.rows.map (fun r => r.category) =
          emptyStore.rows.map (fun r => r.category) ++ [pyStrip ""] :=
  ⟨category_guard_location.1 emptyStore "2024-01-01" "2024-01-15" "   " "5" ""
      (fun _ => some 5) (by decide),
   category_guard_location.2 emptyStore "2024-01-15" "" 5 "x" (by decide)⟩

/-- C8 counterexample: a whitespace-only notes input is truthy in Python, so
add_expense stores the stripped empty string, not an absent value. -/
theorem add_expense_blank_notes :
    add_expense emptyStore "2024-01-15" "Food" 5 " " =
      Except.ok { nextId := 2,
                  rows := [{ id := 1, date := "2024-01-15", category := "Food",
                             amount := 5, notes := some "" }] } := rfl

/-- C8 (amended).  For an empty notes input the stored notes field is absent;
for a non-empty input it is the trimmed string, so a whitespace-only input is
stored as the present empty string rather than as an absent value. -/
theorem notes_normalization :
    ∀ (st : Store) (d c : String) (a : ℚ) (n : String) (st2 : Store),
      add_expense st d c a n = Except.ok st2 →
      ∃ rec : Record, st2.rows = st.rows ++ [rec]
        ∧ (n = "" → rec.notes = none)
        ∧ (n ≠ "" → rec.notes = some (pyStrip n))
        ∧ (n ≠ "" → pyStrip n = "" → rec.notes = some "") := by
  intro st d c a n st2 h
  unfold add_expense at h
  by_cases hd : dateOk d = true
  · rw [if_pos hd] at h
    have h2 : ({ nextId := st.nextId + 1,
                 rows := st.rows ++
                   [{ id := st.nextId, date := d, category := pyStrip c,
                      amount := a,
                      notes := if n = "" then none else some (pyStrip n) }] } : Store)
        = st2 := by
      injection h
    refine ⟨{ id := st.nextId, date := d, category := pyStrip c, amount := a,
              notes := if n = "" then none else some (pyStrip n) }, ?_, ?_, ?_, ?_⟩
    · rw [← h2]
    · intro hn; simp [hn]
    · intro hn; simp [hn]
    · intro hn hpn; simp [hn, hpn]
  · rw [if_neg hd] at h
    exact Except.noConfusion h

/-- Witness for C8: the amended theorem applied to the whitespace-only notes
input, exhibiting the stored empty-string notes value. -/
theorem notes_normalization_witness :
    ∃ rec : Record,
      ({ nextId := 2,
         rows := [{ id := 1, date := "2024-01-15", category := "Food",
                    amount := 5, notes := some "" }] } : Store).rows =
        emptyStore.rows ++ [rec]
      ∧ (" " = "" → rec.notes = none)
      ∧ (" " ≠ "" → rec.notes = some (pyStrip " "))
      ∧ (" " ≠ "" → pyStrip " " = "" → rec.notes = some "") :=
  notes_normalization emptyStore "2024-01-15" "Food" 5 " "
    { nextId := 2,
      rows := [{ id := 1, date := "2024-01-15", category := "Food",
                 amount := 5, notes := some "" }] } rfl

/-- C9.  For every record sequence with validated dates, `export_csv`
produces the header line `id, date, category, amount, notes` followed by one
line per record in the given order, the date field being the `YYYY-MM-DD`
rendering of the parsed date and an absent notes value being rendered as an
empty field. -/
theorem export_csv_shape :
    ∀ (amtStr : ℚ → String) (recs : List Record),
      (∀ r ∈ recs, dateOk r.date = true) →
      (export_csv amtStr recs).length = recs.length + 1
      ∧ (export_csv amtStr recs).head? = some ["id", "date", "category", "amount", "notes"]
      ∧ ∀ (i : Nat) (hi : i < recs.length),
          (export_csv amtStr recs).get? (i + 1) =
              some (csvRow amtStr (recs.get ⟨i, hi⟩))
          ∧ (∃ y m d : Nat, ymdParse (recs.get ⟨i, hi⟩).date.data = some (y, m, d)
              ∧ (csvRow amtStr (recs.get ⟨i, hi⟩)).get? 1 = some (fmtYMD y m d))
          ∧ ((recs.get ⟨i, hi⟩).notes = none →
              (csvRow amtStr (recs.get ⟨i, hi⟩)).get? 4 = some "") := by
  intro f recs hdates
  refine ⟨by simp [export_csv], rfl, ?_⟩
  intro i hi
  refine ⟨?_, ?_, ?_⟩
  · show (List.map (csvRow f) recs).get? i = some (csvRow f (recs.get ⟨i, hi⟩))
    rw [List.get?_map, List.get?_eq_get hi]
    rfl
  · have hr := hdates (recs.get ⟨i, hi⟩) (recs.get_mem i hi)
    unfold dateOk at hr
    cases hp : ymdParse (recs.get ⟨i, hi⟩).date.data with
    | none => rw [hp] at hr; exact Bool.noConfusion hr
    | some t =>
      obtain ⟨y, t2⟩ := t
      obtain ⟨m, d⟩ := t2
      refine ⟨y, m, d, rfl, ?_⟩
      show some (match ymdParse (recs.get ⟨i, hi⟩).date.data with
        | some (yy, mm, dd) => fmtYMD yy mm dd
        | none => (recs.get ⟨i, hi⟩).date) = some (fmtYMD y m d)
      rw [hp]
  · intro hn
    show some (match (recs.get ⟨i, hi⟩).notes with
      | none => ""
      | some s => s) = some ""
    rw [hn]

/-- C10.  The option-absence tests of `search_expenses` are asymmetric: an
empty-string start date, end date and category are all treated as no
constraint, so that a search with category the empty string returns every
record, whereas an amount bound of zero is still applied, so that a search
with minimum amount zero keeps exactly the rows of nonnegative amount and in
particular excludes every negative-amount record. -/
theorem option_presence_asymmetry :
    (∀ rows : List Record,
        search_expenses rows (some "") (some "") (some "") none none = fetch_all rows)
    ∧ (∀ rows : List Record,
        search_expenses rows none none none (some 0) none =
          (fetch_all rows).filter (fun r => decide (0 ≤ r.amount)))
    ∧ ∀ (rows : List Record) (r : Record), r ∈ rows → r.amount < 0 →
        r ∉ search_expenses rows none none none (some 0) none := by
  refine ⟨?_, ?_, ?_⟩
  · intro rows
    unfold search_expenses fetch_all
    congr 1
    exact List.filter_eq_self.mpr (fun r _ => rfl)
  · intro rows
    unfold search_expenses fetch_all
    rw [filter_sortOrd dispLe dispLe_total dispLe_trans]
    congr 1
    apply List.filter_congr
    intro r _
    simp [rowPass]
  · intro rows r hr hneg hmem
    unfold search_expenses at hmem
    rw [mem_sortOrd, List.mem_filter] at hmem
    have h2 := hmem.2
    simp only [rowPass, Bool.and_eq_true, decide_eq_true_eq] at h2
    linarith [h2.1.2]

/-- Witness for C10: a single negative-amount record is excluded by a search
with minimum amount zero. -/
theorem option_presence_asymmetry_witness :
    ({ id := 4, date := "2024-03-01", category := "Refund", amount := -5,
       notes := none } : Record) ∉
      search_expenses
        [{ id := 4, date := "2024-03-01", category := "Refund", amount := -5,
           notes := none }] none none none (some 0) none :=
  option_presence_asymmetry.2.2
    [{ id := 4, date := "2024-03-01", category := "Refund", amount := -5,
       notes := none }]
    { id := 4, date := "2024-03-01", category := "Refund", amount := -5,
      notes := none }
    (List.mem_singleton_self _) (by norm_num)

/-- Witness for C1: the filter characterisation and the monotonicity of an
added category constraint, on the three-record scenario store. -/
theorem search_filter_conjunction_witness :
    search_expenses
        [{ id := 1, date := "2024-01-15", category := "Food", amount := 20, notes := none },
         { id := 2, date := "2024-01-20", category := "Food", amount := 30, notes := none },
         { id := 3, date := "2024-02-01", category := "Travel", amount := 100, notes := none }]
        (some "2024-01-16") none none none none =
      (fetch_all
        [{ id := 1, date := "2024-01-15", category := "Food", amount := 20, notes := none },
         { id := 2, date := "2024-01-20", category := "Food", amount := 30, notes := none },
         { id := 3, date := "2024-02-01", category := "Travel", amount := 100, notes := none }]).filter
        (specPass (some "2024-01-16") none none none none)
    ∧ (search_expenses
        [{ id := 1, date := "2024-01-15", category := "Food", amount := 20, notes := none },
         { id := 2, date := "2024-01-20", category := "Food", amount := 30, notes := none },
         { id := 3, date := "2024-02-01", category := "Travel", amount := 100, notes := none }]
        (some "2024-01-16") none (some "Food") none none).length ≤
      (search_expenses
        [{ id := 1, date := "2024-01-15", category := "Food", amount := 20, notes := none },
         { id := 2, date := "2024-01-20", category := "Food", amount := 30, notes := none },
         { id := 3, date := "2024-02-01", category := "Travel", amount := 100, notes := none }]
        (some "2024-01-16") none none none none).length :=
  ⟨(search_filter_conjunction
      [{ id := 1, date := "2024-01-15", category := "Food", amount := 20, notes := none },
       { id := 2, date := "2024-01-20", category := "Food", amount := 30, notes := none },
       { id := 3, date := "2024-02-01", category := "Travel", amount := 100, notes := none }]
      (some "2024-01-16") none none none none).1 (by decide) (by decide) (by decide),
   ((search_filter_conjunction
      [{ id := 1, date := "2024-01-15", category := "Food", amount := 20, notes := none },
       { id := 2, date := "2024-01-20", category := "Food", amount := 30, notes := none },
       { id := 3, date := "2024-02-01", category := "Travel", amount := 100, notes := none }]
      (some "2024-01-16") none none none none).2.2
      (some "2024-01-16") none (some "Food") none none
      (Or.inl rfl) (Or.inl rfl) (Or.inr rfl) (Or.inl rfl) (Or.inl rfl)).1⟩

/-- Witness for C3: the aggregation totals invariant on the three-record
scenario store. -/
theorem aggregation_totals_witness :
    ((spending_by_category
        [{ id := 1, date := "2024-01-15", category := "Food", amount := 20, notes := none },
         { id := 2, date := "2024-01-20", category := "Food", amount := 30, notes := none },
         { id := 3, date := "2024-02-01", category := "Travel", amount := 100, notes := none }]).map
      (fun p => p.2)).sum =
      total_spending
        [{ id := 1, date := "2024-01-15", category := "Food", amount := 20, notes := none },
         { id := 2, date := "2024-01-20", category := "Food", amount := 30, notes := none },
         { id := 3, date := "2024-02-01", category := "Travel", amount := 100, notes := none }]
    ∧ ((monthly_trend
        [{ id := 1, date := "2024-01-15", category := "Food", amount := 20, notes := none },
         { id := 2, date := "2024-01-20", category := "Food", amount := 30, notes := none },
         { id := 3, date := "2024-02-01", category := "Travel", amount := 100, notes := none }]).map
      (fun p => p.2)).sum =
      total_spending
        [{ id := 1, date := "2024-01-15", category := "Food", amount := 20, notes := none },
         { id := 2, date := "2024-01-20", category := "Food", amount := 30, notes := none },
         { id := 3, date := "2024-02-01", category := "Travel", amount := 100, notes := none }] :=
  aggregation_totals
    [{ id := 1, date := "2024-01-15", category := "Food", amount := 20, notes := none },
     { id := 2, date := "2024-01-20", category := "Food", amount := 30, notes := none },
     { id := 3, date := "2024-02-01", category := "Travel", amount := 100, notes := none }]
    (by decide)

/-- Witness for C5: the ordering properties of both aggregates on the
three-record scenario store. -/
theorem aggregates_display_order_witness :
    (spending_by_category
        [{ id := 1, date := "2024-01-15", category := "Food", amount := 20, notes := none },
         { id := 2, date := "2024-01-20", category := "Food", amount := 30, notes := none },
         { id := 3, date := "2024-02-01", category := "Travel", amount := 100, notes := none }]).Pairwise
      (fun a b => b.2 ≤ a.2)
    ∧ (∀ y m : Nat, (fmtMonth y m).length = 7)
    ∧ ∃ ks : List (Nat × Nat),
        ks.Pairwise (fun a b => a.1 < b.1 ∨ (a.1 = b.1 ∧ a.2 < b.2))
        ∧ (∀ k ∈ ks, 1 ≤ k.1 ∧ k.1 ≤ 9999 ∧ 1 ≤ k.2 ∧ k.2 ≤ 12)
        ∧ (monthly_trend
            [{ id := 1, date := "2024-01-15", category := "Food", amount := 20, notes := none },
             { id := 2, date := "2024-01-20", category := "Food", amount := 30, notes := none },
             { id := 3, date := "2024-02-01", category := "Travel", amount := 100, notes := none }]).map
            (fun p => p.1) = ks.map (fun k => fmtMonth k.1 k.2) :=
  aggregates_display_order
    [{ id := 1, date := "2024-01-15", category := "Food", amount := 20, notes := none },
     { id := 2, date := "2024-01-20", category := "Food", amount := 30, notes := none },
     { id := 3, date := "2024-02-01", category := "Travel", amount := 100, notes := none }]
    (by decide)

/-- Witness for C9: exporting the three scenario records yields four lines,
the second being the row of the most recent record. -/
theorem export_csv_shape_witness :
    (export_csv (fun q => toString q.num)
        [{ id := 3, date := "2024-02-01", category := "Travel", amount := 100, notes := none },
         { id := 2, date := "2024-01-20", category := "Food", amount := 30, notes := none },
         { id := 1, date := "2024-01-15", category := "Food", amount := 20, notes := none }]).length = 4
    ∧ (export_csv (fun q => toString q.num)
        [{ id := 3, date := "2024-02-01", category := "Travel", amount := 100, notes := none },
         { id := 2, date := "2024-01-20", category := "Food", amount := 30, notes := none },
         { id := 1, date := "2024-01-15", category := "Food", amount := 20, notes := none }]).get?
        (0 + 1) =
      some (csvRow (fun q => toString q.num)
        (([{ id := 3, date := "2024-02-01", category := "Travel", amount := 100, notes := none },
           { id := 2, date := "2024-01-20", category := "Food", amount := 30, notes := none },
           { id := 1, date := "2024-01-15", category := "Food", amount := 20, notes := none }] : List Record).get
          ⟨0, by norm_num⟩)) :=
  ⟨(export_csv_shape (fun q => toString q.num)
      [{ id := 3, date := "2024-02-01", category := "Travel", amount := 100, notes := none },
       { id := 2, date := "2024-01-20", category := "Food", amount := 30, notes := none },
       { id := 1, date := "2024-01-15", category := "Food", amount := 20, notes := none }]
      (by decide)).1,
   ((export_csv_shape (fun q => toString q.num)
      [{ id := 3, date := "2024-02-01", category := "Travel", amount := 100, notes := none },
       { id := 2, date := "2024-01-20", category := "Food", amount := 30, notes := none },
       { id := 1, date := "2024-01-15", category := "Food", amount := 20, notes := none }]
      (by decide)).2.2 0 (by norm_num)).1⟩
